import Mathlib

/-!
Shallow embedding of the content-based recommendation core of SkillScroll
(src/app.py), i.e. `build_recommendations` (lines 134-174) together with the
library behaviour it relies on (sklearn `TfidfVectorizer` / `cosine_similarity`,
pandas column operations) and the Learn-feed call site (lines 203-208).

Modelling conventions:
* a pandas DataFrame of videos is a `List Video` in catalog (RangeIndex) order;
  the progress table is a `List ProgressRow`;
* missing CSV cells (NaN) in the text columns are `Option.none`, defaulted by
  `fillna`;
* floating point numbers are modelled by the reals; sklearn raising
  `ValueError: empty vocabulary` is modelled by `Option.none`;
* sklearn tokenization (`token_pattern r"\b\w\w+\b"`, `lowercase=True`) is
  implemented on ASCII characters, which covers every string the app produces;
  sklearn sorts the vocabulary alphabetically, we keep first-occurrence order,
  which only permutes feature columns and leaves every dot product, norm and
  similarity unchanged;
* `DataFrame.sort_values("similarity", ascending=False)` routes through
  pandas `nargsort`, which reverses the column, argsorts and reverses the
  indexer again, so with the stable underlying argsort (numpy uses insertion
  sort on the small arrays arising here) ties keep their original catalog
  order; we embed it as the corresponding stable descending insertion sort.
-/

namespace SkillScroll

/-- A row of the videos table, restricted to the columns the recommendation
core reads (`video_id`, `title`, `topic`, `concept_tags`; lines 138-142 and
154-155 of src/app.py).  Optional fields model missing (NaN) CSV cells. -/
structure Video where
  video_id : String
  title : Option String
  topic : Option String
  concept_tags : Option String
deriving DecidableEq, Repr

/-- A row of the progress table, restricted to the columns the core reads
(lines 147-148 of src/app.py). -/
structure ProgressRow where
  user_id : String
  video_id : String
  watched : Int
deriving DecidableEq, Repr

/-- pandas `Series.fillna("")` on a text cell. -/
def fillna (o : Option String) : String := o.getD ""

/-- The concatenated text of one catalog row (lines 138-142):
`title.fillna("") + " " + topic.fillna("") + " " + concept_tags.fillna("")`. -/
def rowText (v : Video) : String :=
  fillna v.title ++ " " ++ fillna v.topic ++ " " ++ fillna v.concept_tags

/-- The `texts` series of line 138. -/
def texts (videos : List Video) : List String := videos.map rowText

/-- A word character of sklearn's default token pattern `\w` (ASCII range). -/
def isWordChar (c : Char) : Bool := c.isAlphanum || c = '_'

/-- Splits a character list into maximal runs of word characters; `acc` holds
the (reversed) run currently being read. -/
def tokenRuns (acc : List Char) : List Char → List (List Char)
  | [] => if acc = [] then [] else [acc.reverse]
  | c :: cs =>
      if isWordChar c then tokenRuns (c :: acc) cs
      else if acc = [] then tokenRuns [] cs
      else acc.reverse :: tokenRuns [] cs

/-- sklearn `TfidfVectorizer` tokenization: lowercase, then keep the maximal
word-character runs of length at least 2 (`token_pattern r"\b\w\w+\b"`). -/
def tokenize (s : String) : List String :=
  ((tokenRuns [] (s.toList.map Char.toLower)).filter (fun t => 2 ≤ t.length)).map
    (fun t => String.mk t)

/-- First-occurrence deduplication, as performed by pandas `Series.unique`
(line 151/154) and by vocabulary collection. -/
def uniqueFirst (l : List String) : List String :=
  l.foldl (fun acc x => if x ∈ acc then acc else acc ++ [x]) []

/-- The tokenized documents of the catalog. -/
def docsOf (ts : List String) : List (List String) := ts.map tokenize

/-- The vocabulary the vectorizer fits on `ts`: the distinct tokens occurring
in the documents (sklearn additionally sorts them; column order is irrelevant
to every similarity computed here). -/
def vocabOf (ts : List String) : List String :=
  uniqueFirst (docsOf ts).flatten

/-- The filter of line 147-149: rows of the given user with `watched == 1`. -/
def userWatched (progress : List ProgressRow) (user_id : String) : List ProgressRow :=
  progress.filter (fun r => r.user_id == user_id && r.watched == 1)

/-- Line 151/154: `user_watched["video_id"].unique()`, the user's distinct
watched-id list in first-occurrence order. -/
def watchedIdsOf (progress : List ProgressRow) (user_id : String) : List String :=
  uniqueFirst ((userWatched progress user_id).map (·.video_id))

/-- Line 155: `videos[videos["video_id"].isin(watched_ids)].index.tolist()`,
the catalog row positions of the watched ids. -/
def idxOfWatched (videos : List Video) (watched_ids : List String) : List Nat :=
  (videos.enum.filter (fun p => decide (p.2.video_id ∈ watched_ids))).map Prod.fst

/-- Dot product of two rows (trailing entries of the longer row are ignored;
all rows compared here have equal length, the vocabulary size). -/
def dot (u v : List ℝ) : ℝ := (List.zipWith (· * ·) u v).sum

/-- Sum of squares of a row. -/
def normSq (u : List ℝ) : ℝ := dot u u

/-- sklearn `normalize`: divide a row by its Euclidean norm, where a zero norm
is replaced by 1 so that all-zero rows pass through unchanged. -/
noncomputable def l2normalize (u : List ℝ) : List ℝ :=
  u.map (· / (if Real.sqrt (normSq u) = 0 then 1 else Real.sqrt (normSq u)))

/-- sklearn `cosine_similarity` of two rows: both rows are `normalize`d and
dotted, so a zero row yields similarity 0 instead of a division by zero. -/
noncomputable def cosine_sim (u v : List ℝ) : ℝ :=
  dot (l2normalize u) (l2normalize v)

/-- sklearn smoothed inverse document frequency of a term occurring in `df` of
the `n` documents: `ln((1 + n) / (1 + df)) + 1`. -/
noncomputable def idf (n : Nat) (df : Nat) : ℝ :=
  Real.log ((1 + (n : ℝ)) / (1 + (df : ℝ))) + 1

/-- Number of documents a term occurs in. -/
def docFreq (docs : List (List String)) (t : String) : Nat :=
  (docs.filter (fun d => decide (t ∈ d))).length

/-- Raw (unnormalized) tf-idf row of a document over the given vocabulary:
term count times smoothed idf. -/
noncomputable def rawRow (vocab : List String) (n : Nat) (docs : List (List String))
    (d : List String) : List ℝ :=
  vocab.map (fun t => (d.count t : ℝ) * idf n (docFreq docs t))

/-- The row matrix produced by `TfidfVectorizer.fit_transform` when the
vocabulary is non-empty: one l2-normalized tf-idf row per document. -/
noncomputable def tfRows (ts : List String) : List (List ℝ) :=
  (docsOf ts).map (fun d => l2normalize (rawRow (vocabOf ts) ts.length (docsOf ts) d))

/-- `TfidfVectorizer().fit_transform(texts)` (lines 144-145): `none` models the
`ValueError: empty vocabulary` sklearn raises when no document contains a
token, otherwise the l2-normalized tf-idf matrix. -/
noncomputable def fit_transform (ts : List String) : Option (List (List ℝ)) :=
  if vocabOf ts = [] then none else some (tfRows ts)

/-- Row selection `tfidf_matrix[watched_idx]` (line 160). -/
def rowsAt (m : List (List ℝ)) (idx : List Nat) : List (List ℝ) :=
  idx.map (fun i => m.getD i [])

/-- Element-wise sum of a list of equal-length rows. -/
def vecSum : List (List ℝ) → List ℝ
  | [] => []
  | [r] => r
  | r :: rs => List.zipWith (· + ·) r (vecSum rs)

/-- numpy `matrix.mean(axis=0)` (line 161): element-wise arithmetic mean. -/
noncomputable def meanRows (rows : List (List ℝ)) : List ℝ :=
  (vecSum rows).map (· / (rows.length : ℝ))

/-- A ranked candidate: (catalog position, row, similarity); the position is
the pandas RangeIndex label the sort operates on. -/
abbrev Cand := Nat × Video × ℝ

/-- Stable descending insertion: `p` is placed before the first element whose
similarity is at most `p`'s, so earlier-catalog elements win ties. -/
noncomputable def insertDesc (p : Cand) : List Cand → List Cand
  | [] => [p]
  | q :: l => if q.2.2 ≤ p.2.2 then p :: q :: l else q :: insertDesc p l

/-- `sort_values("similarity", ascending=False)` (line 172) as the stable
descending sort pandas `nargsort` realizes (see the header comment). -/
noncomputable def sortDesc : List Cand → List Cand
  | [] => []
  | p :: l => insertDesc p (sortDesc l)

/-- Lines 160-162 of src/app.py: the user profile vector, the element-wise
mean of the watched rows of the (l2-normalized) tf-idf matrix. -/
noncomputable def userProfileVec (videos : List Video) (progress : List ProgressRow)
    (user_id : String) : List ℝ :=
  meanRows (rowsAt (tfRows (texts videos)) (idxOfWatched videos (watchedIdsOf progress user_id)))

/-- Line 164: `cosine_similarity(user_profile_vec, tfidf_matrix).ravel()`, one
similarity per catalog row. -/
noncomputable def simsOf (videos : List Video) (progress : List ProgressRow)
    (user_id : String) : List ℝ :=
  (tfRows (texts videos)).map (fun row => cosine_sim (userProfileVec videos progress user_id) row)

/-- Lines 166-170: the similarity column is attached to the catalog rows (the
`enum` records the pandas RangeIndex label of each row), the watched ids are
filtered out and only strictly positive similarities are kept. -/
noncomputable def candidatesOf (videos : List Video) (progress : List ProgressRow)
    (user_id : String) : List Cand :=
  (((videos.zip (simsOf videos progress user_id)).enum).filter
      (fun p => decide (p.2.1.video_id ∉ watchedIdsOf progress user_id))).filter
    (fun p => decide ((0 : ℝ) < p.2.2))

/-- Lines 160-172 of src/app.py: the filtered candidates in descending
similarity order.  Defined on all inputs; `build_recommendations` only uses it
on the ranked path. -/
noncomputable def rankedCandidates (videos : List Video) (progress : List ProgressRow)
    (user_id : String) : List Cand :=
  sortDesc (candidatesOf videos progress user_id)

/-- `build_recommendations(videos, progress, user_id, top_n)` (lines 134-174).
`none` models the sklearn `empty vocabulary` exception escaping the function;
`some` carries the rows of the returned DataFrame (its similarity column, when
present, is recovered through `rankedCandidates`). -/
noncomputable def build_recommendations (videos : List Video) (progress : List ProgressRow)
    (user_id : String) (top_n : Nat) : Option (List Video) :=
  if videos = [] then some videos
  else
    match fit_transform (texts videos) with
    | none => none
    | some _tfidf_matrix =>
        let watched_ids := watchedIdsOf progress user_id
        if watched_ids.length < 2 then some videos
        else
          if idxOfWatched videos watched_ids = [] then some videos
          else some (((rankedCandidates videos progress user_id).take top_n).map
            (fun c => c.2.1))

/-- The Learn-feed call site (lines 203-206 of src/app.py): the recommendation
result is requested with `top_n = 20` and replaced by the full catalog whenever
it is empty. -/
noncomputable def learnFeed (videos : List Video) (progress : List ProgressRow)
    (user_id : String) : Option (List Video) :=
  match build_recommendations videos progress user_id 20 with
  | none => none
  | some feed => some (if feed = [] then videos else feed)

/-- The order delivered by the ranked path: similarity weakly descending, and
equal similarities resolved by catalog position (the stable tie-break). -/
def rankRel (a b : Cand) : Prop := b.2.2 ≤ a.2.2 ∧ (a.2.2 = b.2.2 → a.1 < b.1)

theorem mem_insertDesc {a p : Cand} :
    ∀ {l : List Cand}, a ∈ insertDesc p l → a = p ∨ a ∈ l := by
  intro l
  induction l with
  | nil =>
      intro h
      simp only [insertDesc, List.mem_singleton] at h
      exact Or.inl h
  | cons q t ih =>
      intro h
      simp only [insertDesc] at h
      by_cases hc : q.2.2 ≤ p.2.2
      · rw [if_pos hc] at h
        rcases List.mem_cons.mp h with h1 | h2
        · exact Or.inl h1
        · exact Or.inr h2
      · rw [if_neg hc] at h
        rcases List.mem_cons.mp h with h1 | h2
        · exact Or.inr (h1 ▸ List.mem_cons_self q t)
        · rcases ih h2 with h3 | h4
          · exact Or.inl h3
          · exact Or.inr (List.mem_cons_of_mem q h4)

theorem mem_sortDesc {a : Cand} :
    ∀ {l : List Cand}, a ∈ sortDesc l → a ∈ l := by
  intro l
  induction l with
  | nil => intro h; simp [sortDesc] at h
  | cons p t ih =>
      intro h
      simp only [sortDesc] at h
      rcases mem_insertDesc h with h1 | h2
      · exact h1 ▸ List.mem_cons_self p t
      · exact List.mem_cons_of_mem p (ih h2)

theorem pairwise_insertDesc {p : Cand} :
    ∀ {l : List Cand}, l.Pairwise rankRel → (∀ q ∈ l, p.1 < q.1) →
      (insertDesc p l).Pairwise rankRel := by
  intro l
  induction l with
  | nil =>
      intro _ _
      simp [insertDesc, List.pairwise_singleton]
  | cons q t ih =>
      intro hp hidx
      rcases List.pairwise_cons.mp hp with ⟨hq, ht⟩
      simp only [insertDesc]
      by_cases hc : q.2.2 ≤ p.2.2
      · rw [if_pos hc]
        refine List.pairwise_cons.mpr ⟨?_, hp⟩
        intro x hx
        rcases List.mem_cons.mp hx with h1 | h2
        · exact h1 ▸ ⟨hc, fun _ => hidx q (List.mem_cons_self q t)⟩
        · exact ⟨le_trans (hq x h2).1 hc, fun _ => hidx x (List.mem_cons_of_mem q h2)⟩
      · rw [if_neg hc]
        have hlt : p.2.2 < q.2.2 := lt_of_not_le hc
        refine List.pairwise_cons.mpr ⟨?_, ih ht (fun x hx => hidx x (List.mem_cons_of_mem q hx))⟩
        intro x hx
        rcases mem_insertDesc hx with h1 | h2
        · subst h1
          exact ⟨le_of_lt hlt, fun he => absurd he (ne_of_gt hlt)⟩
        · exact hq x h2

theorem pairwise_sortDesc :
    ∀ {l : List Cand}, l.Pairwise (fun a b => a.1 < b.1) →
      (sortDesc l).Pairwise rankRel := by
  intro l
  induction l with
  | nil => intro _; simp [sortDesc]
  | cons p t ih =>
      intro h
      rcases List.pairwise_cons.mp h with ⟨hp, ht⟩
      simp only [sortDesc]
      exact pairwise_insertDesc (ih ht) (fun q hq => hp q (mem_sortDesc hq))

theorem le_fst_of_mem_enumFrom {α : Type} {p : Nat × α} :
    ∀ {n : Nat} {l : List α}, p ∈ List.enumFrom n l → n ≤ p.1 := by
  intro n l
  induction l generalizing n with
  | nil => intro h; simp [List.enumFrom] at h
  | cons a t ih =>
      intro h
      rcases List.mem_cons.mp h with h1 | h2
      · subst h1; exact le_refl _
      · exact le_trans (Nat.le_succ n) (ih h2)

theorem pairwise_fst_lt_enumFrom {α : Type} :
    ∀ (l : List α) (n : Nat), (List.enumFrom n l).Pairwise (fun a b => a.1 < b.1) := by
  intro l
  induction l with
  | nil => intro n; simp [List.enumFrom]
  | cons a t ih =>
      intro n
      refine List.pairwise_cons.mpr ⟨?_, ih (n + 1)⟩
      intro x hx
      exact lt_of_lt_of_le (Nat.lt_succ_self n) (le_fst_of_mem_enumFrom hx)

theorem snd_mem_of_mem_enumFrom {α : Type} {p : Nat × α} :
    ∀ {n : Nat} {l : List α}, p ∈ List.enumFrom n l → p.2 ∈ l := by
  intro n l
  induction l generalizing n with
  | nil => intro h; simp [List.enumFrom] at h
  | cons a t ih =>
      intro h
      rcases List.mem_cons.mp h with h1 | h2
      · subst h1; exact List.mem_cons_self a t
      · exact List.mem_cons_of_mem a (ih h2)

theorem pairwise_fst_lt_candidatesOf (videos : List Video) (progress : List ProgressRow)
    (user_id : String) :
    (candidatesOf videos progress user_id).Pairwise (fun a b => a.1 < b.1) := by
  have he : ((videos.zip (simsOf videos progress user_id)).enum).Pairwise
      (fun a b : Cand => a.1 < b.1) := pairwise_fst_lt_enumFrom _ 0
  exact (he.filter _).filter _

theorem pairwise_rankRel_rankedCandidates (videos : List Video) (progress : List ProgressRow)
    (user_id : String) :
    (rankedCandidates videos progress user_id).Pairwise rankRel :=
  pairwise_sortDesc (pairwise_fst_lt_candidatesOf videos progress user_id)

theorem mem_candidatesOf {videos : List Video} {progress : List ProgressRow}
    {user_id : String} {c : Cand} (h : c ∈ candidatesOf videos progress user_id) :
    c.2.1.video_id ∉ watchedIdsOf progress user_id ∧ 0 < c.2.2 := by
  rcases List.mem_filter.mp h with ⟨h1, h2⟩
  rcases List.mem_filter.mp h1 with ⟨_, h3⟩
  exact ⟨of_decide_eq_true h3, of_decide_eq_true h2⟩

theorem mem_rankedCandidates_take {videos : List Video} {progress : List ProgressRow}
    {user_id : String} {n : Nat} {c : Cand}
    (h : c ∈ (rankedCandidates videos progress user_id).take n) :
    c.2.1.video_id ∉ watchedIdsOf progress user_id ∧ 0 < c.2.2 :=
  mem_candidatesOf (mem_sortDesc (List.take_subset n _ h))

theorem fit_transform_eq_some {ts : List String} (h : vocabOf ts ≠ []) :
    fit_transform ts = some (tfRows ts) := by
  rw [fit_transform, if_neg h]

theorem build_eq_ranked {videos : List Video} {progress : List ProgressRow}
    {user_id : String} (n : Nat) (h1 : videos ≠ []) (h2 : vocabOf (texts videos) ≠ [])
    (h3 : ¬ (watchedIdsOf progress user_id).length < 2)
    (h4 : idxOfWatched videos (watchedIdsOf progress user_id) ≠ []) :
    build_recommendations videos progress user_id n =
      some (((rankedCandidates videos progress user_id).take n).map (fun c => c.2.1)) := by
  rw [build_recommendations, if_neg h1, fit_transform_eq_some h2]
  simp only [if_neg h3, if_neg h4]

theorem build_eq_videos_of_nil {progress : List ProgressRow} {user_id : String} (n : Nat) :
    build_recommendations [] progress user_id n = some [] := rfl

theorem build_eq_videos_of_insufficient {videos : List Video} {progress : List ProgressRow}
    {user_id : String} (n : Nat) (h2 : vocabOf (texts videos) ≠ [])
    (h3 : (watchedIdsOf progress user_id).length < 2) :
    build_recommendations videos progress user_id n = some videos := by
  by_cases h1 : videos = []
  · subst h1; rfl
  · rw [build_recommendations, if_neg h1, fit_transform_eq_some h2]
    simp only [if_pos h3]

theorem build_eq_videos_of_no_idx {videos : List Video} {progress : List ProgressRow}
    {user_id : String} (n : Nat) (h2 : vocabOf (texts videos) ≠ [])
    (h4 : idxOfWatched videos (watchedIdsOf progress user_id) = []) :
    build_recommendations videos progress user_id n = some videos := by
  by_cases h1 : videos = []
  · subst h1; rfl
  · rw [build_recommendations, if_neg h1, fit_transform_eq_some h2]
    by_cases h3 : (watchedIdsOf progress user_id).length < 2
    · simp only [if_pos h3]
    · simp only [if_neg h3, if_pos h4]

theorem exists_watched_video_of_idx_ne_nil {videos : List Video} {w : List String}
    (h : idxOfWatched videos w ≠ []) : ∃ v ∈ videos, v.video_id ∈ w := by
  rw [idxOfWatched] at h
  rcases List.exists_mem_of_ne_nil _ ((fun hm => h (by rw [hm]; rfl)) :
      (videos.enum.filter (fun p => decide (p.2.video_id ∈ w))) ≠ []) with ⟨p, hp⟩
  rcases List.mem_filter.mp hp with ⟨hmem, hdec⟩
  exact ⟨p.2, snd_mem_of_mem_enumFrom hmem, of_decide_eq_true hdec⟩

theorem ranked_output_ne_videos {videos : List Video} {progress : List ProgressRow}
    {user_id : String} {n : Nat}
    (h4 : idxOfWatched videos (watchedIdsOf progress user_id) ≠ []) :
    ((rankedCandidates videos progress user_id).take n).map (fun c => c.2.1) ≠ videos := by
  intro he
  rcases exists_watched_video_of_idx_ne_nil h4 with ⟨v, hv, hw⟩
  rw [← he] at hv
  rcases List.mem_map.mp hv with ⟨c, hc, hcv⟩
  exact (mem_rankedCandidates_take hc).1 (hcv ▸ hw)

theorem uniqueFirst_step_mem (acc : List String) (x : String) :
    x ∈ (if x ∈ acc then acc else acc ++ [x]) := by
  by_cases h : x ∈ acc
  · rw [if_pos h]; exact h
  · rw [if_neg h]; exact List.mem_append_right acc (List.mem_singleton.mpr rfl)

theorem uniqueFirst_dup (l₁ l₂ : List String) (v : String) :
    uniqueFirst (l₁ ++ v :: v :: l₂) = uniqueFirst (l₁ ++ v :: l₂) := by
  rw [uniqueFirst, uniqueFirst, List.foldl_append, List.foldl_append]
  rw [List.foldl_cons, List.foldl_cons, List.foldl_cons]
  congr 1
  rw [if_pos (uniqueFirst_step_mem _ v)]

theorem watchedIdsOf_dup (l₁ l₂ : List ProgressRow) (e : ProgressRow) (user_id : String) :
    watchedIdsOf (l₁ ++ e :: e :: l₂) user_id = watchedIdsOf (l₁ ++ e :: l₂) user_id := by
  rw [watchedIdsOf, watchedIdsOf, userWatched, userWatched]
  by_cases hp : (e.user_id == user_id && e.watched == 1) = true
  · simp only [List.filter_append, List.filter_cons, hp, if_true, List.map_append,
      List.map_cons]
    exact uniqueFirst_dup _ _ _
  · simp [List.filter_append, List.filter_cons, hp]

theorem normSq_cons (a : ℝ) (l : List ℝ) : normSq (a :: l) = a * a + normSq l := by
  simp [normSq, dot]

theorem normSq_nonneg (l : List ℝ) : 0 ≤ normSq l := by
  induction l with
  | nil => simp [normSq, dot]
  | cons a t ih => rw [normSq_cons]; exact add_nonneg (mul_self_nonneg a) ih

theorem all_zero_of_normSq_eq_zero {l : List ℝ} (h : normSq l = 0) : ∀ x ∈ l, x = 0 := by
  induction l with
  | nil => intro x hx; simp at hx
  | cons a t ih =>
      rw [normSq_cons] at h
      have ha : a * a = 0 ∧ normSq t = 0 :=
        (add_eq_zero_iff_of_nonneg (mul_self_nonneg a) (normSq_nonneg t)).mp h
      intro x hx
      rcases List.mem_cons.mp hx with h1 | h2
      · subst h1; exact mul_self_eq_zero.mp ha.1
      · exact ih ha.2 x h2

theorem dot_eq_zero_of_left {u : List ℝ} (h : ∀ x ∈ u, x = 0) (v : List ℝ) : dot u v = 0 := by
  induction u generalizing v with
  | nil => simp [dot]
  | cons a t ih =>
      cases v with
      | nil => simp [dot]
      | cons b s =>
          have ha : a = 0 := h a (List.mem_cons_self a t)
          have ht : dot t s = 0 := ih (fun x hx => h x (List.mem_cons_of_mem a hx)) s
          simp [dot] at ht ⊢
          rw [ha]
          simp [ht]

theorem dot_eq_zero_of_right {v : List ℝ} (h : ∀ x ∈ v, x = 0) (u : List ℝ) : dot u v = 0 := by
  induction v generalizing u with
  | nil => cases u <;> simp [dot]
  | cons b s ih =>
      cases u with
      | nil => simp [dot]
      | cons a t =>
          have hb : b = 0 := h b (List.mem_cons_self b s)
          have ht : dot t s = 0 := ih (fun x hx => h x (List.mem_cons_of_mem b hx)) t
          simp [dot] at ht ⊢
          rw [hb]
          simp [ht]

theorem l2normalize_all_zero {u : List ℝ} (h : ∀ x ∈ u, x = 0) :
    ∀ x ∈ l2normalize u, x = 0 := by
  intro x hx
  rcases List.mem_map.mp hx with ⟨y, hy, hxy⟩
  rw [← hxy, h y hy, zero_div]

/-! Sample catalog rows and histories used by the concrete theorems below
(the first three are the scenario catalog of the specification). -/

def vSearch : Video := ⟨"v1", some "Binary Search", some "DSA", some "search, arrays"⟩

def vTrees : Video := ⟨"v2", some "Binary Search Trees", some "DSA", some "trees, search"⟩

def vPasta : Video := ⟨"v3", some "Pasta Recipes", some "Cooking", some "food"⟩

def vBlank : Video := ⟨"v0", none, none, none⟩

def vBlankStr : Video := ⟨"v9", some "", some "", some ""⟩

def histTwo : List ProgressRow := [⟨"u", "v1", 1⟩, ⟨"u", "v2", 1⟩]

def ghostHist : List ProgressRow := [⟨"u", "v1", 1⟩, ⟨"u", "ghost", 1⟩]

/-- C1 (amended): on the ranked path the recommendation output never contains
an item whose id is in the user's distinct watched-id set — every returned row
comes from `rankedCandidates`, whose first filter removes the watched ids; on
the fallback paths the full catalog, watched items included, is returned (see
`C1_watched_in_fallback_output`). -/
theorem C1_ranked_never_contains_watched (videos : List Video) (progress : List ProgressRow)
    (user_id : String) (n : Nat) :
    (((rankedCandidates videos progress user_id).take n).map (fun c => c.2.1)).Forall
      (fun v => v.video_id ∉ watchedIdsOf progress user_id) := by
  rw [List.forall_iff_forall_mem]
  intro v hv
  rcases List.mem_map.mp hv with ⟨c, hc, hcv⟩
  exact hcv ▸ (mem_rankedCandidates_take hc).1

/-- C1 witness: the exclusion at a concrete ranked-path input. -/
theorem C1_ranked_never_contains_watched_witness :
    (((rankedCandidates [vSearch, vTrees] histTwo "u").take 5).map (fun c => c.2.1)).Forall
      (fun v => v.video_id ∉ watchedIdsOf histTwo "u") :=
  C1_ranked_never_contains_watched [vSearch, vTrees] histTwo "u" 5

/-- C1 counterexample: with one watched video and a singleton catalog the code
takes the insufficient-history early return and hands back the full catalog,
so the watched item `v1` appears in the output of the recommendation
computation — the claim fails as stated over all paths. -/
theorem C1_watched_in_fallback_output :
    build_recommendations [vSearch] [⟨"demo_user", "v1", 1⟩] "demo_user" 10 = some [vSearch]
      ∧ "v1" ∈ watchedIdsOf [⟨"demo_user", "v1", 1⟩] "demo_user"
      ∧ vSearch.video_id = "v1" :=
  ⟨by decide, by decide, rfl⟩

/-- C2 (code bug, acknowledged by the specification): the code has no fallback
sentinel — on an empty catalog `build_recommendations` returns the empty
DataFrame itself, the very value an empty ranked list has, and the Learn-feed
call site (`learnFeed`) replaces every empty result by the full catalog, so
"empty because filtered" and "no signal" are not distinguishable. -/
theorem C2_fallback_equals_empty_list :
    build_recommendations [] [] "demo_user" 20 = some ([] : List Video)
      ∧ learnFeed [] [] "demo_user" = some ([] : List Video) :=
  ⟨rfl, by decide⟩

/-- C3 counterexample: the history `[(u,v1,watched=1), (u,ghost,watched=1)]`
against the catalog `[v1, v2]` has exactly one distinct watched id present in
the catalog, yet the `< 2` check of line 151 counts both ids, so the code
ranks from the singleton profile instead of falling back to the catalog. -/
theorem C3_singleton_valid_id_still_ranks :
    ((watchedIdsOf ghostHist "u").filter
        (fun i => decide (i ∈ [vSearch, vTrees].map Video.video_id))).length = 1
      ∧ build_recommendations [vSearch, vTrees] ghostHist "u" 10 ≠ some [vSearch, vTrees] := by
  refine ⟨by decide, ?_⟩
  rw [build_eq_ranked 10 (by decide) (by decide) (by decide) (by decide)]
  intro h
  exact ranked_output_ne_videos (n := 10) (by decide) (Option.some.inj h)

/-- C3 (amended): for a non-empty catalog on which the vectorizer does not
raise, the recommender falls back to the full catalog exactly when the user
has fewer than 2 distinct watched ids overall (present in the catalog or not),
or when none of the watched ids occurs in the catalog. -/
theorem C3_fallback_iff (videos : List Video) (progress : List ProgressRow) (user_id : String)
    (n : Nat) (h1 : videos ≠ []) (h2 : vocabOf (texts videos) ≠ []) :
    build_recommendations videos progress user_id n = some videos
      ↔ ((watchedIdsOf progress user_id).length < 2
          ∨ idxOfWatched videos (watchedIdsOf progress user_id) = []) := by
  constructor
  · intro hb
    by_contra hc
    push_neg at hc
    rw [build_eq_ranked n h1 h2 (by simpa using hc.1) hc.2] at hb
    exact ranked_output_ne_videos hc.2 (Option.some.inj hb)
  · intro hf
    rcases hf with h3 | h4
    · exact build_eq_videos_of_insufficient n h2 h3
    · exact build_eq_videos_of_no_idx n h2 h4

/-- C3 witness: the characterization at a concrete input. -/
theorem C3_fallback_iff_witness :
    ([vSearch] ≠ ([] : List Video)) ∧ vocabOf (texts [vSearch]) ≠ []
      ∧ (build_recommendations [vSearch] [] "u" 5 = some [vSearch]
          ↔ ((watchedIdsOf [] "u").length < 2
              ∨ idxOfWatched [vSearch] (watchedIdsOf [] "u") = [])) :=
  ⟨by decide, by decide, C3_fallback_iff [vSearch] [] "u" 5 (by decide) (by decide)⟩

/-- C4: the ranked output (the first `n` ranked candidates, whose rows the
ranked branch of `build_recommendations` returns) is pairwise ordered by
`rankRel`: similarity weakly descending, and any two candidates with equal
similarity appear in catalog order — in particular a strictly more similar
eligible item always precedes a less similar one. -/
theorem C4_output_sorted_and_stable (videos : List Video) (progress : List ProgressRow)
    (user_id : String) (n : Nat) :
    ((rankedCandidates videos progress user_id).take n).Pairwise rankRel :=
  (pairwise_rankRel_rankedCandidates videos progress user_id).sublist (List.take_sublist n _)

/-- C4 witness: the ordering at a concrete input. -/
theorem C4_output_sorted_and_stable_witness :
    ((rankedCandidates [vSearch, vTrees, vPasta] histTwo "u").take 20).Pairwise rankRel :=
  C4_output_sorted_and_stable [vSearch, vTrees, vPasta] histTwo "u" 20

/-- C5 (code bug): on a non-empty catalog none of whose rows yields a token
(here one row whose title, topic and tags are all the empty string) sklearn's
`TfidfVectorizer.fit_transform` raises `ValueError: empty vocabulary`, modelled
as `none` — contradicting the specification's "must not raise".  (When at
least one row has a token, empty-text rows do get all-zero vectors and zero
similarity, and nothing is raised.) -/
theorem C5_raises_on_tokenless_catalog :
    build_recommendations [vBlankStr] [⟨"demo_user", "v9", 1⟩] "demo_user" 10 = none := by
  decide

/-- C6: every candidate of the ranked output has strictly positive similarity
(the second filter of line 170 keeps only `similarity > 0`). -/
theorem C6_output_similarity_pos (videos : List Video) (progress : List ProgressRow)
    (user_id : String) (n : Nat) :
    ((rankedCandidates videos progress user_id).take n).Forall (fun c => 0 < c.2.2) := by
  rw [List.forall_iff_forall_mem]
  intro c hc
  exact (mem_rankedCandidates_take hc).2

/-- C6 witness: positivity at a concrete input. -/
theorem C6_output_similarity_pos_witness :
    ((rankedCandidates [vSearch, vTrees, vPasta] histTwo "u").take 20).Forall
      (fun c => 0 < c.2.2) :=
  C6_output_similarity_pos [vSearch, vTrees, vPasta] histTwo "u" 20

/-- C7: similarity is total — the cosine of any pair involving a vector of
zero norm (a zero user profile or a zero item row) is 0, because sklearn's
`normalize` leaves zero rows unchanged instead of dividing by zero; in this
real-valued model no NaN exists to propagate, the zero-norm guard being
exactly what absorbs the degenerate cases. -/
theorem C7_cosine_zero_vector_is_zero (u v : List ℝ)
    (h : normSq u = 0 ∨ normSq v = 0) : cosine_sim u v = 0 := by
  show dot (l2normalize u) (l2normalize v) = 0
  rcases h with h | h
  · exact dot_eq_zero_of_left (l2normalize_all_zero (all_zero_of_normSq_eq_zero h)) _
  · exact dot_eq_zero_of_right (l2normalize_all_zero (all_zero_of_normSq_eq_zero h)) _

/-- C7 witness: a concrete zero vector against a concrete non-zero vector. -/
theorem C7_cosine_zero_vector_is_zero_witness :
    (normSq [(0 : ℝ)] = 0 ∨ normSq [(1 : ℝ)] = 0) ∧ cosine_sim [(0 : ℝ)] [(1 : ℝ)] = 0 :=
  ⟨Or.inl (by norm_num [normSq, dot]),
    C7_cosine_zero_vector_is_zero [(0 : ℝ)] [(1 : ℝ)] (Or.inl (by norm_num [normSq, dot]))⟩

/-- C8: duplicating any watch event leaves the recommendation output
unchanged — the progress table only enters through
`watchedIdsOf`, the first-occurrence-deduplicated watched-id list, which
ignores the duplicate. -/
theorem C8_duplicate_event_noop (videos : List Video) (l₁ l₂ : List ProgressRow)
    (e : ProgressRow) (user_id : String) (n : Nat) :
    build_recommendations videos (l₁ ++ e :: e :: l₂) user_id n
      = build_recommendations videos (l₁ ++ e :: l₂) user_id n := by
  simp only [build_recommendations, rankedCandidates, candidatesOf, simsOf, userProfileVec,
    watchedIdsOf_dup]

/-- C8 witness: a concrete duplicated event. -/
theorem C8_duplicate_event_noop_witness :
    build_recommendations [vSearch] [⟨"u", "v1", 1⟩, ⟨"u", "v1", 1⟩] "u" 5
      = build_recommendations [vSearch] [⟨"u", "v1", 1⟩] "u" 5 :=
  C8_duplicate_event_noop [vSearch] [] [] ⟨"u", "v1", 1⟩ "u" 5

/-- C9: on the ranked path the result consists of exactly the first `n` of the
sorted eligible candidates (`head(top_n)`, line 174), hence has length at most
`n`. -/
theorem C9_output_is_take_topn (videos : List Video) (progress : List ProgressRow)
    (user_id : String) (n : Nat) (h1 : videos ≠ []) (h2 : vocabOf (texts videos) ≠ [])
    (h3 : ¬ (watchedIdsOf progress user_id).length < 2)
    (h4 : idxOfWatched videos (watchedIdsOf progress user_id) ≠ []) :
    build_recommendations videos progress user_id n
        = some (((rankedCandidates videos progress user_id).take n).map (fun c => c.2.1))
      ∧ (((rankedCandidates videos progress user_id).take n).map (fun c => c.2.1)).length ≤ n := by
  refine ⟨build_eq_ranked n h1 h2 h3 h4, ?_⟩
  rw [List.length_map, List.length_take]
  exact min_le_left _ _

/-- C9 witness: the ranked path at a concrete input with `top_n = 2`. -/
theorem C9_output_is_take_topn_witness :
    ([vSearch, vTrees, vPasta] ≠ ([] : List Video))
      ∧ vocabOf (texts [vSearch, vTrees, vPasta]) ≠ []
      ∧ ¬ (watchedIdsOf histTwo "u").length < 2
      ∧ idxOfWatched [vSearch, vTrees, vPasta] (watchedIdsOf histTwo "u") ≠ []
      ∧ (build_recommendations [vSearch, vTrees, vPasta] histTwo "u" 2
            = some (((rankedCandidates [vSearch, vTrees, vPasta] histTwo "u").take 2).map
              (fun c => c.2.1))
          ∧ (((rankedCandidates [vSearch, vTrees, vPasta] histTwo "u").take 2).map
              (fun c => c.2.1)).length ≤ 2) :=
  ⟨by decide, by decide, by decide, by decide,
    C9_output_is_take_topn [vSearch, vTrees, vPasta] histTwo "u" 2
      (by decide) (by decide) (by decide) (by decide)⟩

/-- C10 (amended): on every fallback path — empty catalog, fewer than 2
distinct watched ids, or no watched id present in the catalog — the recommender
returns the full input catalog unchanged, provided the vectorizer does not
raise (the catalog is empty or some row yields a token). -/
theorem C10_fallback_returns_catalog (videos : List Video) (progress : List ProgressRow)
    (user_id : String) (n : Nat)
    (hf : videos = [] ∨ (watchedIdsOf progress user_id).length < 2
        ∨ idxOfWatched videos (watchedIdsOf progress user_id) = [])
    (hv : videos = [] ∨ vocabOf (texts videos) ≠ []) :
    build_recommendations videos progress user_id n = some videos := by
  rcases hv with hnil | hvoc
  · subst hnil; rfl
  · rcases hf with hnil | h3 | h4
    · subst hnil; rfl
    · exact build_eq_videos_of_insufficient n hvoc h3
    · exact build_eq_videos_of_no_idx n hvoc h4

/-- C10 witness: a concrete insufficient-history fallback returning the
catalog. -/
theorem C10_fallback_returns_catalog_witness :
    (([vSearch] : List Video) = [] ∨ (watchedIdsOf [] "demo_user").length < 2
        ∨ idxOfWatched [vSearch] (watchedIdsOf [] "demo_user") = [])
      ∧ (([vSearch] : List Video) = [] ∨ vocabOf (texts [vSearch]) ≠ [])
      ∧ build_recommendations [vSearch] [] "demo_user" 7 = some [vSearch] :=
  ⟨Or.inr (Or.inl (by decide)), Or.inr (by decide),
    C10_fallback_returns_catalog [vSearch] [] "demo_user" 7
      (Or.inr (Or.inl (by decide))) (Or.inr (by decide))⟩

/-- C10 counterexample: a non-empty catalog whose single row has no tokens is
on the "fewer than 2 distinct watched ids" fallback path, yet the vectorizer
raises before that early return is reached, so the full catalog is not
returned. -/
theorem C10_raise_preempts_fallback :
    (watchedIdsOf [] "demo_user").length < 2
      ∧ build_recommendations [vBlank] [] "demo_user" 10 ≠ some [vBlank] :=
  ⟨by decide, by decide⟩

end SkillScroll
